import Mathlib

/-!
Verification development for the Illinux kernel core: a shallow embedding of
the virtual-memory manager, process/descriptor layer, fork trap-return path,
virtio block driver entry points and the flat file system, together with
theorems settling the specification claims about them.

Conventions of the embedding:
* machine words are `Nat` with explicit `% 2^64` where overflow matters;
* physical memory that the page-table code reads is a map from physical page
  number to a table of entries (`MemSt.tables`); byte-granular frame contents
  are modelled separately in the `PhysMem` namespace where a claim needs them;
* functions that can panic in the kernel return `Option`, with `none` for the
  panic;
* C `while` loops that are not structurally bounded are given a fuel
  parameter, `none` denoting fuel exhaustion.
-/

namespace Illinux

/-- PAGE_SIZE from the sources: 4 KiB pages. -/
def PAGE_SIZE : Nat := 4096

/-- Sv39 page-table entry flag bits (memory.h is not under src; the bit values
are fixed by the Sv39 hardware encoding the sources program against). -/
def PTE_V : Nat := 0x01

def PTE_R : Nat := 0x02

def PTE_W : Nat := 0x04

def PTE_X : Nat := 0x08

def PTE_U : Nat := 0x10

def PTE_G : Nat := 0x20

def PTE_A : Nat := 0x40

def PTE_D : Nat := 0x80

/-- Error numerals. error.h is not under src; the spec fixes the error set
(EINVAL, EBADFD, EMFILE, EBUSY, ENOENT, EIO, ENOTSUP, EBADFMT) and that they
are returned negated; the concrete numerals are immaterial to every claim, so
distinct positive values are chosen. `EIOERR` stands for the EIO code. -/
def EINVAL : Int := 1

def EBADFD : Int := 2

def EMFILE : Int := 3

def EBUSY : Int := 4

def ENOENT : Int := 5

def EIOERR : Int := 6

def ENOTSUP : Int := 7

def EBADFMT : Int := 8

/-- Virtual page number fields of an Sv39 virtual address (VPN2/VPN1/VPN0
macros in memory.c). -/
def VPN2 (vma : Nat) : Nat := (vma >>> 30) &&& 0x1FF

def VPN1 (vma : Nat) : Nat := (vma >>> 21) &&& 0x1FF

def VPN0 (vma : Nat) : Nat := (vma >>> 12) &&& 0x1FF

/-- User virtual-address range. config.h is not under src; the spec places the
user range inside the third gigabyte, matching the loader bounds quoted in the
ELF loader source (0x80100000 to 0x81000000). The claims settled below do not
depend on the concrete endpoints. -/
def USER_START_VMA : Nat := 0x80100000

def USER_END_VMA : Nat := 0x81000000

/-- A page-table entry as the code reads and writes it: the 8-bit flag field
and the physical page number (the rsw/pbmt/n fields of struct pte are never
read by the embedded functions). -/
structure Pte where
  flags : Nat
  ppn : Nat
deriving Repr, DecidableEq

/-- Page-table level of physical memory: contents of each physical page viewed
as an array of 512 entries (indices are always masked to 9 bits by the VPN
macros), plus the physical page allocator free list. The free list is kept as
the list of free page numbers; the next-pointer bytes that thread it through
the frames themselves are modelled at byte granularity in `PhysMem`. -/
structure MemSt where
  tables : Nat → Nat → Pte
  freeList : List Nat

/-- Write one page-table entry (a store through a struct pte pointer). -/
def writePte (s : MemSt) (p i : Nat) (e : Pte) : MemSt :=
  { s with tables := fun p2 i2 => if p2 = p ∧ i2 = i then e else s.tables p2 i2 }

/-- memory_alloc_page: pop the head of the free list; panics (`none`) when the
list is empty. The frame contents are returned exactly as they are: the
function performs no zeroing. -/
def memory_alloc_page (s : MemSt) : Option (Nat × MemSt) :=
  match s.freeList with
  | [] => none
  | page :: rest => some (page, { s with freeList := rest })

/-- memory_free_page: link the page back at the head of the free list. -/
def memory_free_page (s : MemSt) (p : Nat) : MemSt :=
  { s with freeList := p :: s.freeList }

/-- walk_pt(root, vma, create) from memory.c. `root` is the physical page
number of the level-2 table. Result: `none` for an allocator panic,
`some (s, none)` for a NULL return, `some (s, some pt0)` for a pointer to the
level-0 table with page number pt0. On the create path the code stores the new
page number and the bare PTE_V flag into the inner entry; the freshly
allocated table page keeps whatever contents the frame had (no zeroing). -/
def walk_pt (s : MemSt) (root vma : Nat) (create : Bool) : Option (MemSt × Option Nat) :=
  let pte2 := s.tables root (VPN2 vma)
  let step2 : Option (MemSt × Option Nat) :=
    if pte2.flags &&& PTE_V ≠ 0 then
      some (s, some pte2.ppn)
    else if !create then
      some (s, none)
    else
      match memory_alloc_page s with
      | none => none
      | some (pt1, s1) => some (writePte s1 root (VPN2 vma) ⟨PTE_V, pt1⟩, some pt1)
  match step2 with
  | none => none
  | some (s1, none) => some (s1, none)
  | some (s1, some pt1) =>
    let pte1 := s1.tables pt1 (VPN1 vma)
    if pte1.flags &&& PTE_V ≠ 0 then
      some (s1, some pte1.ppn)
    else if !create then
      some (s1, none)
    else
      match memory_alloc_page s1 with
      | none => none
      | some (pt0, s2) => some (writePte s2 pt1 (VPN1 vma) ⟨PTE_V, pt0⟩, some pt0)

/-- pagenum_to_pageptr from memory.c. -/
def pagenum_to_pageptr (n : Nat) : Nat := n <<< 12

/-- pageptr_to_pagenum from memory.c. -/
def pageptr_to_pagenum (p : Nat) : Nat := p >>> 12

/-- mtag_to_root from memory.c: `(mtag << 20) >> 8` on 64-bit words, yielding
the pointer to the root page table. -/
def mtag_to_root (mtag : Nat) : Nat := ((mtag <<< 20) % 2 ^ 64) >>> 8

/-- Address space plus the active-translation register (satp): the functions
below that call active_space_root read it from here. -/
structure VmSt where
  mem : MemSt
  satp : Nat

/-- active_space_root, as the physical page number of the root table of the
space named by the satp register. -/
def active_space_root (satp : Nat) : Nat := pageptr_to_pagenum (mtag_to_root satp)

/-- memory_alloc_and_map_page from memory.c: walk with create=1 (panicking when
the walk returns NULL), allocate a frame, store its page number into the
level-0 entry and OR `V | rwxug_flags | A | D` into whatever flag bits the
entry already had. No store touches the newly allocated frame itself. Returns
the updated state and the physical address handed back by the function. -/
def memory_alloc_and_map_page (v : VmSt) (vma rwxug_flags : Nat) : Option (VmSt × Nat) :=
  match walk_pt v.mem (active_space_root v.satp) vma true with
  | none => none
  | some (_, none) => none
  | some (s1, some pt0) =>
    match memory_alloc_page s1 with
    | none => none
    | some (page, s2) =>
      let old := s2.tables pt0 (VPN0 vma)
      let s3 := writePte s2 pt0 (VPN0 vma)
        ⟨old.flags ||| (PTE_V ||| rwxug_flags ||| PTE_A ||| PTE_D), page⟩
      some ({ v with mem := s3 }, pagenum_to_pageptr page ||| (vma &&& 0xFFF))

/-- memory_handle_page_fault from memory.c: align the faulting address down to
a page boundary, panic outside the user range, otherwise allocate and map an
R|W|U page there. -/
def memory_handle_page_fault (v : VmSt) (vptr : Nat) : Option VmSt :=
  let aligned := vptr &&& 0xFFFFFFFFFFFFF000
  if aligned < USER_START_VMA ∨ aligned + PAGE_SIZE > USER_END_VMA then
    none
  else
    match memory_alloc_and_map_page v aligned (PTE_R ||| PTE_W ||| PTE_U) with
    | none => none
    | some (v1, _) => some v1

/-- walk_and_free_user from memory.c, with a recursion-depth fuel (the tables
have three levels; fuel 3 covers every run the kernel performs). For each of
the 512 entries of the given table: nothing happens unless the U bit is set;
when it is, the function recurses if the entry is a valid non-leaf, then frees
the page the entry points to. It never clears or modifies any entry. -/
def walk_and_free_user (fuel : Nat) (s : MemSt) (root : Nat) : MemSt :=
  match fuel with
  | 0 => s
  | fuel + 1 =>
    (List.range 512).foldl
      (fun acc i =>
        let e := acc.tables root i
        if e.flags &&& PTE_U ≠ 0 then
          let acc1 :=
            if e.flags &&& PTE_V ≠ 0 ∧ e.flags &&& (PTE_R ||| PTE_W ||| PTE_X) = 0 then
              walk_and_free_user fuel acc e.ppn
            else acc
          memory_free_page acc1 e.ppn
        else acc)
      s

/-- memory_unmap_and_free_user from memory.c: run walk_and_free_user on the
root of the active space. -/
def memory_unmap_and_free_user (v : VmSt) : VmSt :=
  { v with mem := walk_and_free_user 3 v.mem (active_space_root v.satp) }

/-- memory_space_switch: write the translation register. -/
def memory_space_switch (v : VmSt) (mtag : Nat) : VmSt :=
  { v with satp := mtag }

/-- memory_space_reclaim from memory.c: sfence (no functional effect in the
embedding), free user memory of the active space, switch to the main space
(the main mtag is a global in the sources, passed here as an argument). -/
def memory_space_reclaim (v : VmSt) (main_mtag : Nat) : VmSt :=
  memory_space_switch (memory_unmap_and_free_user v) main_mtag

/-- C boolean conjunction `a && b` on integer operands, as used (in place of
bitwise and) by the validation routines in memory.c. -/
def cBoolAnd (a b : Nat) : Nat := if a ≠ 0 ∧ b ≠ 0 then 1 else 0

/-- memory_validate_vptr_len from memory.c, fuelled (`none` = fuel ran out).
Each iteration walks to the level-0 table of the page containing vp, forms
`page_addr = pagenum_to_pageptr((uintptr_t)page)` from the table pointer,
rejects when that is zero, then tests `page->flags` — the flags of entry 0 of
the level-0 table — with the C boolean-and expressions of the source, and
advances vp to the next page boundary, decrementing len with size_t
wrap-around. -/
def memory_validate_vptr_len (v : VmSt) (vp len rwxug_flags : Nat) (fuel : Nat) : Option Int :=
  match fuel with
  | 0 => none
  | fuel + 1 =>
    if len > 0 then
      let aligned_vp := vp &&& 0xFFFFFFFFFFFFF000
      match walk_pt v.mem (active_space_root v.satp) aligned_vp false with
      | none => none
      | some (_, pageOpt) =>
        let pagePtr := match pageOpt with
          | none => 0
          | some pn => pagenum_to_pageptr pn
        let page_addr := (pagePtr <<< 12) % 2 ^ 64
        if page_addr = 0 then some (-EBADFMT)
        else
          let pflags := (v.mem.tables (pageptr_to_pagenum pagePtr) 0).flags
          if cBoolAnd pflags PTE_V = 0 then some (-EBADFMT)
          else if cBoolAnd pflags rwxug_flags ≠ rwxug_flags then some (-EBADFMT)
          else
            let n := PAGE_SIZE - (vp - aligned_vp)
            let len1 := (len + (2 ^ 64 - n)) % 2 ^ 64
            memory_validate_vptr_len v (aligned_vp + PAGE_SIZE) len1 rwxug_flags fuel
    else some 0

/-- A user leaf is visible through the path i2, i1, i0 from the given root:
the level-2 and level-1 entries are valid non-leaf entries and the level-0
entry at i0 has both V and U set. -/
def userLeafAt (s : MemSt) (root i2 i1 i0 : Nat) : Bool :=
  let e2 := s.tables root i2
  let e1 := s.tables e2.ppn i1
  let e0 := s.tables e1.ppn i0
  decide (i2 < 512) && decide (i1 < 512) && decide (i0 < 512) &&
    decide (e2.flags &&& PTE_V ≠ 0) && decide (e2.flags &&& (PTE_R ||| PTE_W ||| PTE_X) = 0) &&
    decide (e1.flags &&& PTE_V ≠ 0) && decide (e1.flags &&& (PTE_R ||| PTE_W ||| PTE_X) = 0) &&
    decide (e0.flags &&& PTE_V ≠ 0) && decide (e0.flags &&& PTE_U ≠ 0)

/-- Concrete kernel-style page tables used to evaluate the memory claims:
page 200 is the root (main_pt2 role), entry 2 of which points to the level-1
table at page 201 (ptab_pte flags G|V); entry 0 of that points to the level-0
table at page 202; entry 0 of page 202 is a kernel leaf (R|X|G with V, A, D).
No entry anywhere carries the U bit. All other pages, including the free ones,
read as zero. -/
def demoTables : Nat → Nat → Pte := fun p i =>
  if p = 200 ∧ i = 2 then ⟨PTE_V ||| PTE_G, 201⟩
  else if p = 201 ∧ i = 0 then ⟨PTE_V ||| PTE_G, 202⟩
  else if p = 202 ∧ i = 0 then ⟨PTE_V ||| PTE_R ||| PTE_X ||| PTE_G ||| PTE_A ||| PTE_D, 0x80000⟩
  else ⟨0, 0⟩

/-- The main mtag for the demo tables: Sv39 mode bits over root page 200. -/
def demoMainMtag : Nat := (8 <<< 60) ||| 200

/-- Demo machine state: the main space is active (as it is for the initial
process, whose space comes from memory_space_create sharing the main root) and
pages 210 and 211 are free. -/
def demoVmSt : VmSt :=
  { mem := { tables := demoTables, freeList := [210, 211] }, satp := demoMainMtag }

/-- State after a user page fault at USER_START_VMA followed by
memory_space_reclaim, the scenario of the reclaim claim. -/
def demoAfterReclaim : Option VmSt :=
  match memory_handle_page_fault demoVmSt USER_START_VMA with
  | none => none
  | some v1 => some (memory_space_reclaim v1 demoMainMtag)

/-- Page tables used to evaluate the validation claim: the level-0 table at
page 102 has a valid entry at index 0 (so the `page->flags` test of the source
sees a nonzero V flag) while the entry the address 0x1000 actually touches,
index VPN0(0x1000) = 1, is all zero: the touched page is unmapped. -/
def demoValidateTables : Nat → Nat → Pte := fun p i =>
  if p = 100 ∧ i = 0 then ⟨PTE_V, 101⟩
  else if p = 101 ∧ i = 0 then ⟨PTE_V, 102⟩
  else if p = 102 ∧ i = 0 then ⟨PTE_V, 0⟩
  else ⟨0, 0⟩

/-- Demo state for the validation claim, root page 100 active. -/
def demoValidateVmSt : VmSt :=
  { mem := { tables := demoValidateTables, freeList := [] }, satp := (8 <<< 60) ||| 100 }

/-- The demo tables after the page fault at USER_START_VMA: the level-0 table
at page 202 gained a leaf with flags V|R|W|U|A|D (215) over the freshly
allocated frame 210 at index VPN0(USER_START_VMA) = 256. -/
def demoFaultedTables : Nat → Nat → Pte := fun p i =>
  if p = 202 ∧ i = 256 then ⟨215, 210⟩ else demoTables p i

/-- The demo machine state after the page fault at USER_START_VMA. -/
def demoFaulted : VmSt :=
  { mem := { tables := demoFaultedTables, freeList := [211] }, satp := demoMainMtag }

namespace PhysMem

/-- Byte-granular view of the physical frames for the frame-contents claims:
memory at byte granularity plus the head of the free list (a frame address, 0
for NULL). The free list is threaded through the first 8 bytes of each free
frame, as union linked_page in memory.c does. -/
structure PhysSt where
  mem : Nat → Nat
  freeHead : Nat

/-- Little-endian 64-bit load, reading the next pointer stored in a frame. -/
def load64 (m : Nat → Nat) (a : Nat) : Nat :=
  (List.range 8).foldr (fun k acc => m (a + k) + 256 * acc) 0

/-- Little-endian 64-bit store. -/
def store64 (m : Nat → Nat) (a v : Nat) : Nat → Nat :=
  fun x => if a ≤ x ∧ x < a + 8 then (v >>> (8 * (x - a))) % 256 else m x

/-- memory_alloc_page at byte granularity: return the head frame and advance
the head through the next pointer stored in its first 8 bytes. No byte of the
returned frame is written: the function does not zero it. -/
def memory_alloc_page (s : PhysSt) : Option (Nat × PhysSt) :=
  if s.freeHead = 0 then none
  else some (s.freeHead, { s with freeHead := load64 s.mem s.freeHead })

/-- memory_free_page at byte granularity: store the old head into the first 8
bytes of the freed frame and make it the new head. -/
def memory_free_page (s : PhysSt) (p : Nat) : PhysSt :=
  { mem := store64 s.mem p s.freeHead, freeHead := p }

/-- Frame-byte view of memory_alloc_and_map_page: besides allocating the
frame, the function stores only to the level-0 page-table entry (covered by
the page-table level embedding above) and never to the frame it maps, so at
byte granularity mapping a fresh page is the allocation itself. -/
def memory_alloc_and_map_page (s : PhysSt) : Option (Nat × PhysSt) :=
  memory_alloc_page s

/-- Frame-byte view of memory_handle_page_fault: allocate and map, no store to
the new frame. -/
def memory_handle_page_fault (s : PhysSt) : Option (Nat × PhysSt) :=
  memory_alloc_and_map_page s

/-- Byte contents for the demand-zero claim: all of memory is zero except the
free frame at 0x80400000, whose first 8 bytes hold the little-endian next
pointer 0x80401000 left by the free-list threading. -/
def demoPhysBytes : Nat → Nat := fun a =>
  if 0x80400000 ≤ a ∧ a < 0x80400008 then (0x80401000 >>> (8 * (a - 0x80400000))) % 256 else 0

/-- Demo physical state: one linked free frame at 0x80400000. -/
def demoPhysSt : PhysSt := { mem := demoPhysBytes, freeHead := 0x80400000 }

end PhysMem

/-- PROCESS_IOMAX from process.h. -/
def PROCESS_IOMAX : Nat := 16

/-- Reference counts and close invocations of the I/O capability handles.
Handles are identified by numbers; closeCalls counts how many times the close
operation of the underlying capability (ops->close) has run on each. -/
structure IoSt where
  refcnt : Nat → Nat
  closeCalls : Nat → Nat

/-- Direct invocation of the close operation in the capability vtable
(io->ops->close(io)). -/
def opsClose (st : IoSt) (h : Nat) : IoSt :=
  { st with closeCalls := fun h2 => if h2 = h then st.closeCalls h2 + 1 else st.closeCalls h2 }

/-- Modelled from the spec: ioclose (io.h is not under src; only callers are).
Per the I/O capability contract, it decrements the reference count and invokes
the underlying close operation only when the count reaches zero. -/
def ioclose (st : IoSt) (h : Nat) : IoSt :=
  let st1 := { st with refcnt := fun h2 => if h2 = h then st.refcnt h2 - 1 else st.refcnt h2 }
  if st1.refcnt h = 0 then opsClose st1 h else st1

/-- Per-process descriptor state: the iotab slots (handles or NULL) plus the
handle reference-count state. -/
structure ProcSt where
  iotab : Nat → Option Nat
  ioSt : IoSt

/-- The descriptor-table portion of process_exit from process.c: for every
non-NULL iotab slot, the source invokes the close operation directly through
the vtable (proc->iotab[i]->ops->close(...)) and nulls the slot. The
address-space reclaim before this loop and the final thread_exit are outside
the scope of the descriptor claim and are not modelled here. -/
def process_exit (p : ProcSt) : ProcSt :=
  (List.range PROCESS_IOMAX).foldl
    (fun acc i =>
      match acc.iotab i with
      | some h =>
        { iotab := fun j => if j = i then none else acc.iotab j,
          ioSt := opsClose acc.ioSt h }
      | none => acc)
    p

/-- Demo process for the exit claim: descriptor 0 holds handle 7 whose
reference count is 2, the sharing situation fork produces. -/
def demoProc : ProcSt :=
  { iotab := fun j => if j = 0 then some 7 else none,
    ioSt := { refcnt := fun h => if h = 7 then 2 else 0, closeCalls := fun _ => 0 } }

/-- sysdevopen from syscall.c. The device layer (device.c is not under src) is
abstracted by the outcome of device_open, passed in as openResult; nameNull
models the NULL test on the name argument. On the error paths after a
successful open the source releases the handle through ioclose; on success it
stores the handle and assigns 1 to its reference count field. -/
def sysdevopen (p : ProcSt) (fd : Int) (openResult : Except Int Nat) (nameNull : Bool) :
    ProcSt × Int :=
  if nameNull then (p, -EINVAL)
  else
    match openResult with
    | .error e => (p, e)
    | .ok h =>
      if 0 ≤ fd then
        if (PROCESS_IOMAX : Int) ≤ fd then ({ p with ioSt := ioclose p.ioSt h }, -EMFILE)
        else if p.iotab fd.toNat ≠ none then ({ p with ioSt := ioclose p.ioSt h }, -EBADFD)
        else
          ({ iotab := fun j => if j = fd.toNat then some h else p.iotab j,
             ioSt := { p.ioSt with refcnt := fun h2 => if h2 = h then 1 else p.ioSt.refcnt h2 } },
           fd)
      else
        match (List.range PROCESS_IOMAX).find? (fun i => p.iotab i = none) with
        | none => ({ p with ioSt := ioclose p.ioSt h }, -EMFILE)
        | some new_fd =>
          ({ iotab := fun j => if j = new_fd then some h else p.iotab j,
             ioSt := { p.ioSt with refcnt := fun h2 => if h2 = h then 1 else p.ioSt.refcnt h2 } },
           (new_fd : Int))

/-- sysfsopen from syscall.c: the same slot logic over the outcome of fs_open,
except that its error paths release the handle by calling fs_close — the
underlying close — directly instead of ioclose. -/
def sysfsopen (p : ProcSt) (fd : Int) (openResult : Except Int Nat) (nameNull : Bool) :
    ProcSt × Int :=
  if nameNull then (p, -EINVAL)
  else
    match openResult with
    | .error e => (p, e)
    | .ok h =>
      if 0 ≤ fd then
        if (PROCESS_IOMAX : Int) ≤ fd then ({ p with ioSt := opsClose p.ioSt h }, -EMFILE)
        else if p.iotab fd.toNat ≠ none then ({ p with ioSt := opsClose p.ioSt h }, -EBADFD)
        else
          ({ iotab := fun j => if j = fd.toNat then some h else p.iotab j,
             ioSt := { p.ioSt with refcnt := fun h2 => if h2 = h then 1 else p.ioSt.refcnt h2 } },
           fd)
      else
        match (List.range PROCESS_IOMAX).find? (fun i => p.iotab i = none) with
        | none => ({ p with ioSt := opsClose p.ioSt h }, -EMFILE)
        | some new_fd =>
          ({ iotab := fun j => if j = new_fd then some h else p.iotab j,
             ioSt := { p.ioSt with refcnt := fun h2 => if h2 = h then 1 else p.ioSt.refcnt h2 } },
           (new_fd : Int))

/-- Demo process for the open claims: descriptor 3 already holds handle 7 and
the handle has reference count 5, so the same handle is reachable through
another descriptor when it is opened again. -/
def demoOpenProc : ProcSt :=
  { iotab := fun j => if j = 3 then some 7 else none,
    ioSt := { refcnt := fun h => if h = 7 then 5 else 0, closeCalls := fun _ => 0 } }

/-- sysmsgout from syscall.c: the call to memory_validate_vstr is commented
out in the source, so the function prints the message and returns 0 whatever
the msg argument is; console output has no further kernel-visible effect. -/
def sysmsgout (v : VmSt) (_msg : Nat) : VmSt × Int := (v, 0)

/-- A saved trap frame as the fork path reads it in thrasm.s: the 32 slots
x[0..31] plus the two CSR slots at offsets 32*8 (sstatus) and 33*8 (sepc). -/
structure trap_frame where
  x : Nat → Nat
  sstatus : Nat
  sepc : Nat

/-- The user-visible machine context an sret resumes: general-purpose
registers and the two S-mode CSRs that govern the return. -/
structure UContext where
  x : Nat → Nat
  sstatus : Nat
  sepc : Nat

/-- The _thread_finish_fork assembly routine of thrasm.s, as the user context
the child resumes with: sepc and sstatus are loaded from the parent trap
frame; x10 (a0) is set to zero by the `li x10, 0` instruction; the load of
x4 (tp) is commented out in the source, so after `mv tp, a0` the child keeps
the child thread pointer there; every other register x1..x31 is loaded from
the parent frame, and x0 is hardwired to zero. -/
def _thread_finish_fork (child : Nat) (tfr : trap_frame) : UContext :=
  { sepc := tfr.sepc
    sstatus := tfr.sstatus
    x := fun i =>
      if i = 0 then 0
      else if i = 4 then child
      else if i = 10 then 0
      else tfr.x i }

/-- Demo parent trap frame with pairwise distinct register values. -/
def demoTfr : trap_frame := { x := fun i => 100 + i, sstatus := 5, sepc := 9 }

/-- sysfork from syscall.c. process_fork is summarized by whether a child
process record was allocated (the source returns -EBUSY when it was not);
thread_fork_to_user is modelled from the spec (thread.c is not under src): it
returns the thread id of the child, positive on success, and the source
passes that value through as the return value of the syscall in the parent. -/
def sysfork (forkOk : Bool) (childTid : Int) : Int :=
  if !forkOk then -EBUSY
  else if childTid < 0 then childTid
  else childTid

/-- VirtIO block request types from vioblk.c. -/
def VIRTIO_BLK_T_IN : Nat := 0

def VIRTIO_BLK_T_OUT : Nat := 1

/-- The fields of struct vioblk_device that its read and write entry points
consult. -/
structure vioblk_device where
  blksz : Nat
  pos : Nat
  bufblkno : Nat
  readonly : Bool
  opened : Bool
deriving Repr, DecidableEq

/-- The read loop of vioblk_read, fuelled. Each iteration performs
operation_single_blk(dev, dev->bufblkno, ·, VIRTIO_BLK_T_IN) — recorded in
the ops trace as (type, sector) — which on success returns dev->blksz; the
loop then advances bufblkno and pos and decrements bufsz by the result with
size_t wrap-around. The device is modelled as always completing with OK
status. -/
def vioblk_read_go (dev : vioblk_device) (bufsz : Nat) (fuel : Nat)
    (ops : List (Nat × Nat)) (bytes_read : Nat) :
    List (Nat × Nat) × Option (Int × vioblk_device) :=
  match fuel with
  | 0 => (ops, none)
  | fuel + 1 =>
    if bufsz > 0 then
      let result := dev.blksz
      vioblk_read_go { dev with bufblkno := dev.bufblkno + 1, pos := dev.pos + dev.blksz }
        ((bufsz + (2 ^ 64 - result)) % 2 ^ 64) fuel
        (ops ++ [(VIRTIO_BLK_T_IN, dev.bufblkno)]) (bytes_read + result)
    else (ops, some ((bytes_read : Int), dev))

/-- vioblk_read from vioblk.c: set bufblkno from the current position, return
0 for an empty request, refuse a request that is not a multiple of the block
size with -ENOTSUP, otherwise run the single-block loop. -/
def vioblk_read (dev0 : vioblk_device) (bufsz : Nat) (fuel : Nat) :
    List (Nat × Nat) × Option (Int × vioblk_device) :=
  let dev := { dev0 with bufblkno := dev0.pos / dev0.blksz }
  if bufsz = 0 then ([], some (0, dev))
  else if bufsz % dev.blksz ≠ 0 then ([], some (-ENOTSUP, dev))
  else vioblk_read_go dev bufsz fuel [] 0

/-- The write loop of vioblk_write, fuelled. Each iteration performs
operation_single_blk(dev, sector, ·, VIRTIO_BLK_T_OUT) with the local sector
counter that starts at zero, then advances pos, increments sector, and
decrements n by the result with size_t wrap-around. -/
def vioblk_write_go (dev : vioblk_device) (sector n : Nat) (fuel : Nat)
    (ops : List (Nat × Nat)) (bytes_written : Nat) :
    List (Nat × Nat) × Option (Int × vioblk_device) :=
  match fuel with
  | 0 => (ops, none)
  | fuel + 1 =>
    if n > 0 then
      let result := dev.blksz
      vioblk_write_go { dev with pos := dev.pos + result } (sector + 1)
        ((n + (2 ^ 64 - result)) % 2 ^ 64) fuel
        (ops ++ [(VIRTIO_BLK_T_OUT, sector)]) (bytes_written + result)
    else (ops, some ((bytes_written : Int), dev))

/-- vioblk_write from vioblk.c: set bufblkno from the current position (a
value the rest of the function never uses), fail -EIO on a read-only device,
return 0 for an empty request, and otherwise enter the single-block loop with
sector counter 0. The source performs no block-alignment test on n. -/
def vioblk_write (dev0 : vioblk_device) (n : Nat) (fuel : Nat) :
    List (Nat × Nat) × Option (Int × vioblk_device) :=
  let dev := { dev0 with bufblkno := dev0.pos / dev0.blksz }
  if dev.readonly then ([], some (-EIOERR, dev))
  else if n = 0 then ([], some (0, dev))
  else vioblk_write_go dev 0 n fuel [] 0

/-- Demo block device: 512-byte blocks, current position 1024 (sector 2). -/
def demoDev : vioblk_device :=
  { blksz := 512, pos := 1024, bufblkno := 0, readonly := false, opened := true }

/-- FS_BLKSZ from kfs.c. -/
def FS_BLKSZ : Nat := 4096

/-- MAX_DB_PER_INODE from kfs.c. -/
def MAX_DB_PER_INODE : Nat := 1023

/-- An on-disk inode: byte length and the table of data-block indices. -/
structure inode_t where
  byte_len : Nat
  data_block_num : Nat → Nat

/-- The file-system state fs_read consults. The disk accesses of update_inode
and update_data_block (an IOCTL_SETPOS to the block offset followed by a read
of exactly FS_BLKSZ bytes through the mounted block device) are modelled as
lookups into the inode table and the data-block array of the disk image. -/
structure FsSt where
  num_inodes : Nat
  num_data : Nat
  inodes : Nat → inode_t
  dataBlocks : Nat → Nat → Nat

/-- An open file handle (file_t in kfs.c, in-use, fields fs_read touches). -/
structure file_t where
  file_pos : Nat
  file_size : Nat
  inode_number : Nat
deriving Repr, DecidableEq

/-- The copy loop of fs_read: while read_bytes < bytes_to_read, locate the
data block of the current offset, fail -EIO when the block index is outside
the allocated blocks or the inode capacity or the data-block number is out of
range, and otherwise copy min(space left in block, bytes left) bytes out of
the loaded data block. Returns the copied bytes and the final read_bytes. -/
def fs_read_go (fs : FsSt) (ind : inode_t) (allocated file_pos bytes_to_read read_bytes : Nat)
    (acc : List Nat) : Except Int (List Nat × Nat) :=
  if read_bytes < bytes_to_read then
    let byte_offset := file_pos + read_bytes
    let block_idx := byte_offset / FS_BLKSZ
    let block_offset := byte_offset % FS_BLKSZ
    if allocated ≤ block_idx ∨ MAX_DB_PER_INODE ≤ block_idx then .error (-EIOERR)
    else
      let data_block_idx := ind.data_block_num block_idx
      if fs.num_data ≤ data_block_idx then .error (-EIOERR)
      else
        let bytes_in_block := FS_BLKSZ - block_offset
        let bytes_left_to_read := bytes_to_read - read_bytes
        let bytes_to_copy := min bytes_in_block bytes_left_to_read
        fs_read_go fs ind allocated file_pos bytes_to_read (read_bytes + bytes_to_copy)
          (acc ++ (List.range bytes_to_copy).map
            (fun j => fs.dataBlocks data_block_idx (block_offset + j)))
  else .ok (acc, read_bytes)
termination_by bytes_to_read - read_bytes
decreasing_by
  simp only [FS_BLKSZ] at *
  have hbo : (file_pos + read_bytes) % 4096 < 4096 := Nat.mod_lt _ (by norm_num)
  omega

/-- fs_read from kfs.c (the mutex acquire and release that bracket the body
serialize it and have no further functional effect). Returns the updated
handle and either an error or the bytes copied into the buffer; the value the
C function returns is the final read_bytes counter, by which it also advances
file_pos. -/
def fs_read (fs : FsSt) (fd : file_t) (n : Nat) : file_t × Except Int (List Nat) :=
  if n = 0 then (fd, .ok [])
  else if fd.file_size ≤ fd.file_pos then (fd, .ok [])
  else if fs.num_inodes ≤ fd.inode_number then (fd, .error (-EIOERR))
  else
    let ind := fs.inodes fd.inode_number
    let allocated := (ind.byte_len + FS_BLKSZ - 1) / FS_BLKSZ
    let bytes_remaining := fd.file_size - fd.file_pos
    let bytes_to_read := min n bytes_remaining
    match fs_read_go fs ind allocated fd.file_pos bytes_to_read 0 [] with
    | .error e => (fd, .error e)
    | .ok (bytes, read_bytes) =>
      ({ fd with file_pos := fd.file_pos + read_bytes }, .ok bytes)

/-- The byte of the file at offset o, read through the inode block table: the
data block indexed by entry o / FS_BLKSZ of the inode, at offset o mod
FS_BLKSZ. -/
def fileByte (fs : FsSt) (ind : inode_t) (o : Nat) : Nat :=
  fs.dataBlocks (ind.data_block_num (o / FS_BLKSZ)) (o % FS_BLKSZ)

/-- Demo file system: one inode of length 5 stored in data block 0, whose
byte at offset o reads 65 + o. -/
def demoFs : FsSt :=
  { num_inodes := 1, num_data := 1,
    inodes := fun _ => { byte_len := 5, data_block_num := fun _ => 0 },
    dataBlocks := fun _ o => 65 + o }

/-- Demo open handle on the demo file: position 1, size 5, inode 0. -/
def demoFd : file_t := { file_pos := 1, file_size := 5, inode_number := 0 }

/-- Demo handle at end of file. -/
def demoFdEof : file_t := { file_pos := 5, file_size := 5, inode_number := 0 }

/-- A fold whose step function fixes the initial value on every list element
leaves it unchanged. -/
theorem foldl_fixed {α β : Type} (f : α → β → α) (s : α) (l : List β)
    (h : ∀ b ∈ l, f s b = s) : l.foldl f s = s := by
  induction l with
  | nil => rfl
  | cons x xs ih =>
    rw [List.foldl_cons, h x (List.mem_cons_self x xs)]
    exact ih (fun b hb => h b (List.mem_cons_of_mem x hb))

/-- The fs_read copy loop, started at read_bytes with accumulator acc, copies
exactly the remaining bytes_to_read - read_bytes file bytes starting at offset
file_pos + read_bytes, provided the requested range lies inside the allocated
blocks, the allocated block count is within the inode capacity, and every
allocated block index maps to a data block that exists on the disk. -/
theorem fs_read_go_spec (fs : FsSt) (ind : inode_t) (allocated file_pos bytes_to_read : Nat)
    (halloc : file_pos + bytes_to_read ≤ allocated * FS_BLKSZ)
    (hmax : allocated ≤ MAX_DB_PER_INODE)
    (hdb : ∀ bi, bi < allocated → ind.data_block_num bi < fs.num_data) :
    ∀ k read_bytes acc, bytes_to_read - read_bytes = k → read_bytes ≤ bytes_to_read →
      fs_read_go fs ind allocated file_pos bytes_to_read read_bytes acc =
        .ok (acc ++ (List.range (bytes_to_read - read_bytes)).map
               (fun j => fileByte fs ind (file_pos + read_bytes + j)), bytes_to_read) := by
  intro k
  induction k using Nat.strong_induction_on with
  | _ k ih =>
  intro read_bytes acc hk hle
  rw [fs_read_go]
  by_cases hlt : read_bytes < bytes_to_read
  · simp only [hlt, if_true]
    have hblk : (file_pos + read_bytes) / FS_BLKSZ < allocated := by
      rw [Nat.div_lt_iff_lt_mul (by norm_num [FS_BLKSZ])]
      omega
    have hnot : ¬ (allocated ≤ (file_pos + read_bytes) / FS_BLKSZ ∨
        MAX_DB_PER_INODE ≤ (file_pos + read_bytes) / FS_BLKSZ) := by omega
    rw [if_neg hnot]
    have hdbn : ¬ (fs.num_data ≤ ind.data_block_num ((file_pos + read_bytes) / FS_BLKSZ)) := by
      have := hdb _ hblk
      omega
    rw [if_neg hdbn]
    have hbo : (file_pos + read_bytes) % FS_BLKSZ < FS_BLKSZ :=
      Nat.mod_lt _ (by norm_num [FS_BLKSZ])
    set c := min (FS_BLKSZ - (file_pos + read_bytes) % FS_BLKSZ) (bytes_to_read - read_bytes)
      with hc
    have hc1 : 1 ≤ c := by simp only [hc]; omega
    have hcle : read_bytes + c ≤ bytes_to_read := by simp only [hc]; omega
    rw [ih (bytes_to_read - (read_bytes + c)) (by omega) (read_bytes + c) _ rfl hcle]
    congr 1
    rw [List.append_assoc]
    congr 1
    have hsplit : bytes_to_read - read_bytes = c + (bytes_to_read - (read_bytes + c)) := by omega
    rw [hsplit, List.range_add, List.map_append, List.map_map]
    have hA : List.map (fun j => fs.dataBlocks
          (ind.data_block_num ((file_pos + read_bytes) / FS_BLKSZ))
          ((file_pos + read_bytes) % FS_BLKSZ + j)) (List.range c) =
        List.map (fun j => fileByte fs ind (file_pos + read_bytes + j)) (List.range c) := by
      apply List.map_congr_left
      intro j hj
      rw [List.mem_range] at hj
      simp only [fileByte]
      have hj2 : j < FS_BLKSZ - (file_pos + read_bytes) % FS_BLKSZ := by omega
      have hdiv : (file_pos + read_bytes + j) / FS_BLKSZ = (file_pos + read_bytes) / FS_BLKSZ := by
        simp only [FS_BLKSZ] at *
        omega
      have hmod : (file_pos + read_bytes + j) % FS_BLKSZ
          = (file_pos + read_bytes) % FS_BLKSZ + j := by
        simp only [FS_BLKSZ] at *
        omega
      rw [hdiv, hmod]
    have hB : List.map (fun j => fileByte fs ind (file_pos + (read_bytes + c) + j))
          (List.range (bytes_to_read - (read_bytes + c))) =
        List.map ((fun j => fileByte fs ind (file_pos + read_bytes + j)) ∘ fun x => c + x)
          (List.range (bytes_to_read - (read_bytes + c))) := by
      apply List.map_congr_left
      intro j hj
      simp only [Function.comp]
      congr 1
      omega
    rw [hA, hB]
  · simp only [hlt, if_false]
    have : bytes_to_read = read_bytes := by omega
    subst this
    simp

/-- Claim C1: memory_validate_vptr_len is claimed to return 0 only when every
touched page is mapped with V set and at least the requested flags, and to
return the negative bad-format error when a touched page is unmapped. The
evaluation below exhibits a state in which the function returns 0 for a range
whose page is unmapped: the level-0 entry of the touched page (index VPN0 of
the pointer) has flags 0, yet the boolean-and flag tests of the source,
applied to entry 0 of the level-0 table, accept the range. -/
theorem memory_validate_accepts_unmapped_page :
    memory_validate_vptr_len demoValidateVmSt 0x1000 4096 0 2 = some 0 ∧
      (demoValidateVmSt.mem.tables 102 (VPN0 0x1000)).flags &&& PTE_V = 0 := by decide

/-- Claim C2: after memory_space_reclaim the active space is claimed to hold
no reachable level-0 leaf with V and U both set. The evaluation runs the
demand-paging fault handler once on the (main-rooted) active space and then
memory_space_reclaim, and finds the user leaf installed by the fault still
reachable from the root of the now-active space: walk_and_free_user skips the
subtree (inner entries carry no U bit) and never clears any entry. -/
theorem memory_space_reclaim_leaves_user_leaf :
    ∃ v1, memory_handle_page_fault demoVmSt USER_START_VMA = some v1 ∧
      userLeafAt (memory_space_reclaim v1 demoMainMtag).mem
        (active_space_root (memory_space_reclaim v1 demoMainMtag).satp) 2 0 256 = true := by
  refine ⟨demoFaulted, rfl, ?_⟩
  have hroot : active_space_root demoMainMtag = 200 := rfl
  have hfree : walk_and_free_user 3 demoFaulted.mem 200 = demoFaulted.mem := by
    rw [walk_and_free_user]
    apply foldl_fixed
    intro i _
    have hU : (demoFaulted.mem.tables 200 i).flags &&& PTE_U = 0 := by
      by_cases h2 : i = 2
      · subst h2; decide
      · show (demoFaultedTables 200 i).flags &&& PTE_U = 0
        simp only [demoFaultedTables, demoTables]
        norm_num [h2]
    simp only [hU]
    simp
  show userLeafAt (memory_space_reclaim demoFaulted demoMainMtag).mem
      (active_space_root (memory_space_reclaim demoFaulted demoMainMtag).satp) 2 0 256 = true
  simp only [memory_space_reclaim, memory_unmap_and_free_user, memory_space_switch, hroot]
  rw [show demoFaulted.satp = demoMainMtag from rfl, hroot, hfree]
  decide

/-- Claim C3: process_exit is claimed to decrement the reference count of each
non-null iotab slot and invoke the underlying close only when the count
reaches zero. The evaluation runs the embedded process_exit on a process whose
descriptor 0 holds a handle with reference count 2 (shared after fork): the
underlying close operation is invoked once anyway and the reference count is
left untouched at 2. -/
theorem process_exit_closes_shared_descriptor :
    (process_exit demoProc).ioSt.closeCalls 7 = 1 ∧
      (process_exit demoProc).ioSt.refcnt 7 = 2 ∧
      (process_exit demoProc).iotab 0 = none := by decide

/-- Claim C4, counterexample: the claim states that the child resumes with all
general-purpose registers restored from the parent trap frame except a0. At
the concrete frame demoTfr and child thread pointer 99, register x4 (tp) is
not restored: its load is commented out in _thread_finish_fork, so the child
keeps the child thread pointer there. -/
theorem fork_child_frame_counterexample :
    (_thread_finish_fork 99 demoTfr).x 4 ≠ demoTfr.x 4 := by decide

/-- Claim C4, amended: a successful fork returns the positive child thread id
in the parent, and the child resumes with every general-purpose register
x1..x31 except a0 and tp restored from the parent trap frame, a0 set to zero
(so the child observes return value 0), tp holding the child thread pointer,
and sepc and sstatus loaded from the frame. -/
theorem fork_semantics_amended (child : Nat) (tfr : trap_frame) (tid : Int) (htid : 0 < tid) :
    (∀ i, 1 ≤ i → i ≤ 31 → i ≠ 4 → i ≠ 10 → (_thread_finish_fork child tfr).x i = tfr.x i) ∧
      (_thread_finish_fork child tfr).x 10 = 0 ∧
      (_thread_finish_fork child tfr).x 4 = child ∧
      (_thread_finish_fork child tfr).sepc = tfr.sepc ∧
      (_thread_finish_fork child tfr).sstatus = tfr.sstatus ∧
      sysfork true tid = tid ∧ 0 < sysfork true tid := by
  refine ⟨?_, by simp [_thread_finish_fork], by simp [_thread_finish_fork], rfl, rfl,
    by simp [sysfork], ?_⟩
  · intro i h1 h2 h4 h10
    simp only [_thread_finish_fork]
    rw [if_neg (by omega), if_neg h4, if_neg h10]
  · simpa [sysfork] using htid

/-- Witness for the amended fork claim at the concrete frame demoTfr, child
thread pointer 99 and child tid 1. -/
theorem fork_semantics_amended_witness :
    (_thread_finish_fork 99 demoTfr).x 5 = demoTfr.x 5 ∧
      (_thread_finish_fork 99 demoTfr).x 10 = 0 ∧
      (_thread_finish_fork 99 demoTfr).x 4 = 99 ∧
      sysfork true 1 = 1 := by
  have h := fork_semantics_amended 99 demoTfr 1 (by decide)
  exact ⟨h.1 5 (by decide) (by decide) (by decide) (by decide), h.2.1, h.2.2.1, h.2.2.2.2.2.1⟩

/-- Claim C5: on a handle whose size matches its inode, whose inode fits the
per-inode block capacity and whose allocated blocks all exist on disk,
fs_read with n > 0 copies exactly min(n, file_size - file_pos) bytes of the
file starting at file_pos, advances file_pos by that count and returns it;
with file_pos at or past file_size it returns 0 and leaves the handle
unchanged. -/
theorem fs_read_correct (fs : FsSt) (fd : file_t) (n : Nat)
    (hn : 0 < n)
    (hin : fd.inode_number < fs.num_inodes)
    (hsz : fd.file_size = (fs.inodes fd.inode_number).byte_len)
    (hcap : (fs.inodes fd.inode_number).byte_len ≤ MAX_DB_PER_INODE * FS_BLKSZ)
    (hdb : ∀ bi, bi < ((fs.inodes fd.inode_number).byte_len + FS_BLKSZ - 1) / FS_BLKSZ →
      (fs.inodes fd.inode_number).data_block_num bi < fs.num_data) :
    (fd.file_pos < fd.file_size →
      fs_read fs fd n =
        ({ fd with file_pos := fd.file_pos + min n (fd.file_size - fd.file_pos) },
         .ok ((List.range (min n (fd.file_size - fd.file_pos))).map
               (fun j => fileByte fs (fs.inodes fd.inode_number) (fd.file_pos + j))))) ∧
    (fd.file_size ≤ fd.file_pos → fs_read fs fd n = (fd, .ok [])) := by
  constructor
  · intro hpos
    rw [fs_read]
    rw [if_neg (by omega), if_neg (by omega), if_neg (by omega)]
    have halloc : fd.file_pos + min n (fd.file_size - fd.file_pos) ≤
        (((fs.inodes fd.inode_number).byte_len + FS_BLKSZ - 1) / FS_BLKSZ) * FS_BLKSZ := by
      have h1 : (fs.inodes fd.inode_number).byte_len ≤
          (((fs.inodes fd.inode_number).byte_len + FS_BLKSZ - 1) / FS_BLKSZ) * FS_BLKSZ := by
        simp only [FS_BLKSZ]
        omega
      omega
    have hmax : ((fs.inodes fd.inode_number).byte_len + FS_BLKSZ - 1) / FS_BLKSZ
        ≤ MAX_DB_PER_INODE := by
      simp only [FS_BLKSZ, MAX_DB_PER_INODE] at *
      omega
    dsimp only
    rw [fs_read_go_spec fs (fs.inodes fd.inode_number) _ fd.file_pos _ halloc hmax hdb
      (min n (fd.file_size - fd.file_pos)) 0 [] rfl (by omega)]
    simp
  · intro heof
    rw [fs_read]
    rw [if_neg (by omega), if_pos (by omega)]

/-- Witness for the fs_read claim on the demo file system: reading 2 bytes at
position 1 of the 5-byte file returns bytes 66 and 67 and advances the
position to 3; reading at end of file returns nothing and leaves the handle
unchanged. -/
theorem fs_read_correct_witness :
    fs_read demoFs demoFd 2 =
      ({ file_pos := 3, file_size := 5, inode_number := 0 }, .ok [66, 67]) ∧
    fs_read demoFs demoFdEof 2 = (demoFdEof, .ok []) := by
  have h := fs_read_correct demoFs demoFd 2 (by decide) (by decide) (by decide) (by decide)
    (fun bi _ => Nat.one_pos)
  have h2 := fs_read_correct demoFs demoFdEof 2 (by decide) (by decide) (by decide) (by decide)
    (fun bi _ => Nat.one_pos)
  constructor
  · have := h.1 (by decide)
    rw [this]
    rfl
  · exact h2.2 (by decide)

/-- Claim C6: both block-device entry points are claimed to refuse a request
whose length is not a multiple of the block size with the unsupported error
and transfer nothing, with sector numbers derived from the current position.
The evaluation shows vioblk_write on a 512-byte-block device at position 1024
with the unaligned length 1 immediately performing a block transfer — at
sector 0, not the position-derived sector 2 — and not refusing, while
vioblk_read on the same request does refuse with -ENOTSUP and transfers
nothing. -/
theorem vioblk_write_unaligned_transfers :
    vioblk_write demoDev 1 1 = ([(VIRTIO_BLK_T_OUT, 0)], none) ∧
      vioblk_read demoDev 1 1 = ([], some (-ENOTSUP, { demoDev with bufblkno := 2 })) := by
  decide

/-- Claim C7: a frame newly linked into a user mapping is claimed to be all
zero at the moment the mapping becomes visible. The evaluation runs the
byte-level fault handler on a state whose free frame at 0x80400000 carries the
free-list next pointer 0x80401000 in its first 8 bytes: the frame is linked
with byte 0x10 at offset 1 still in place (and the next pointer becomes the
new free head); no path zeroes the frame. -/
theorem page_fault_maps_nonzero_frame :
    (match PhysMem.memory_handle_page_fault PhysMem.demoPhysSt with
      | some (p, s1) => some (p, s1.mem (p + 1), s1.freeHead)
      | none => none) = some (0x80400000, 0x10, 0x80401000) ∧ (0x10 : Nat) ≠ 0 := by decide

/-- Claim C9: sysmsgout is claimed to return the negative bad-format error for
an invalid user string. The evaluation applies the embedded sysmsgout — whose
validation call is commented out in the source — to a pointer whose page the
active space does not map (the walk returns NULL): it still returns 0. -/
theorem sysmsgout_returns_zero_unvalidated :
    sysmsgout demoValidateVmSt 0x40000000 = (demoValidateVmSt, 0) ∧
      walk_pt demoValidateVmSt.mem (active_space_root demoValidateVmSt.satp)
        (0x40000000 &&& 0xFFFFFFFFFFFFF000) false = some (demoValidateVmSt.mem, none) :=
  ⟨rfl, rfl⟩

/-- Claim C10: after every successful sysdevopen or sysfsopen, the reference
count of the handle stored in the chosen slot equals exactly 1 and the slot
holds that handle — the open path assigns 1 to the count unconditionally,
whatever its previous value. -/
theorem open_sets_refcnt_one (p : ProcSt) (fd : Int) (h : Nat) :
    (0 ≤ (sysdevopen p fd (.ok h) false).2 →
      (sysdevopen p fd (.ok h) false).1.ioSt.refcnt h = 1 ∧
      (sysdevopen p fd (.ok h) false).1.iotab (sysdevopen p fd (.ok h) false).2.toNat = some h) ∧
    (0 ≤ (sysfsopen p fd (.ok h) false).2 →
      (sysfsopen p fd (.ok h) false).1.ioSt.refcnt h = 1 ∧
      (sysfsopen p fd (.ok h) false).1.iotab (sysfsopen p fd (.ok h) false).2.toNat = some h) := by
  constructor
  · intro hret
    simp only [sysdevopen] at hret ⊢
    by_cases h0 : 0 ≤ fd
    · rw [if_pos h0] at hret ⊢
      by_cases h1 : (PROCESS_IOMAX : Int) ≤ fd
      · rw [if_pos h1] at hret
        norm_num [EMFILE] at hret
      · rw [if_neg h1] at hret ⊢
        by_cases h2 : p.iotab fd.toNat ≠ none
        · rw [if_pos h2] at hret
          norm_num [EBADFD] at hret
        · rw [if_neg h2] at hret ⊢
          simp
    · rw [if_neg h0] at hret ⊢
      cases hfind : (List.range PROCESS_IOMAX).find? (fun i => p.iotab i = none) with
      | none => rw [hfind] at hret; norm_num [EMFILE] at hret
      | some nf => simp
  · intro hret
    simp only [sysfsopen] at hret ⊢
    by_cases h0 : 0 ≤ fd
    · rw [if_pos h0] at hret ⊢
      by_cases h1 : (PROCESS_IOMAX : Int) ≤ fd
      · rw [if_pos h1] at hret
        norm_num [EMFILE] at hret
      · rw [if_neg h1] at hret ⊢
        by_cases h2 : p.iotab fd.toNat ≠ none
        · rw [if_pos h2] at hret
          norm_num [EBADFD] at hret
        · rw [if_neg h2] at hret ⊢
          simp
    · rw [if_neg h0] at hret ⊢
      cases hfind : (List.range PROCESS_IOMAX).find? (fun i => p.iotab i = none) with
      | none => rw [hfind] at hret; norm_num [EMFILE] at hret
      | some nf => simp

/-- Witness for the open claim: opening handle 7 — already reachable through
descriptor 3 with reference count 5 — through the auto-assign path of
sysdevopen and the exact-slot path of sysfsopen leaves its count at exactly
1. -/
theorem open_sets_refcnt_one_witness :
    (sysdevopen demoOpenProc (-1) (.ok 7) false).1.ioSt.refcnt 7 = 1 ∧
      (sysfsopen demoOpenProc 5 (.ok 7) false).1.ioSt.refcnt 7 = 1 ∧
      demoOpenProc.ioSt.refcnt 7 = 5 ∧ demoOpenProc.iotab 3 = some 7 := by
  have h := open_sets_refcnt_one demoOpenProc (-1) 7
  have h2 := open_sets_refcnt_one demoOpenProc 5 7
  exact ⟨(h.1 (by decide)).1, (h2.2 (by decide)).1, rfl, rfl⟩

/-- Claim C8: for a virtual address already mapped down to level 0, the walk
with create=0 returns the same level-0 table as the walk with create=1 would,
and neither call allocates a page or changes any entry: both return the
original state unchanged. -/
theorem walk_pt_deterministic (s : MemSt) (root vma : Nat)
    (h2 : (s.tables root (VPN2 vma)).flags &&& PTE_V ≠ 0)
    (h1 : (s.tables (s.tables root (VPN2 vma)).ppn (VPN1 vma)).flags &&& PTE_V ≠ 0) :
    walk_pt s root vma false
        = some (s, some (s.tables (s.tables root (VPN2 vma)).ppn (VPN1 vma)).ppn) ∧
      walk_pt s root vma true = walk_pt s root vma false := by
  unfold walk_pt
  simp only [h2, if_pos, ne_eq, not_false_eq_true, if_true]
  simp [h1]

/-- Witness for the walk determinism claim on the demo kernel tables at the
mapped address USER_START_VMA. -/
theorem walk_pt_deterministic_witness :
    walk_pt demoVmSt.mem 200 0x80100000 false = some (demoVmSt.mem, some 202) ∧
      walk_pt demoVmSt.mem 200 0x80100000 true = walk_pt demoVmSt.mem 200 0x80100000 false := by
  have h := walk_pt_deterministic demoVmSt.mem 200 0x80100000 (by decide) (by decide)
  exact ⟨by rw [h.1]; rfl, h.2⟩

end Illinux
